import Mathlib

/-!
Verification of the cart order-validation pipeline of
`src/cart/src/cart/cart.rest.service.ts` (`validateOrder`).

The pipeline fans out one catalog lookup per cart line item
(`async.map`); a lookup that rejects is converted by the catch handler
into the sentinel object `{_id: undefined}`.  The settled results are
then joined back to the cart lines by
`results.find(element => element._id == article.articleId)` and each
line is classified into an error, a warning, or no record.

Embedding choices:
* A settled lookup result is `Option Article`: `some a` for a decoded
  article payload, `none` for the `{_id: undefined}` sentinel.  The
  sentinel's `_id` is `undefined`, which the join's loose equality
  against a string never matches, so `findResult` skips `none` entries.
* The catalog collaborator's state is a function
  `catalog : String → Option Article` (the lookup keyed by the requested
  article id); an arbitrary per-call behavior is modelled by handing the
  classification stage an arbitrary results list.
* JavaScript numbers holding quantities and stock are modelled as `Int`;
  the only arithmetic performed on them is the comparison
  `result.stock < article.quantity`.
* The Express middleware mutates `req.validation` and leaves the rest of
  the request alone; `validateOrder` is the corresponding state
  transformer on an `IValidationResult` record.
-/

namespace CartService

/-- Cart line item (`ICartArticle` of `cart.schema`): the fields the pipeline reads. -/
structure ICartArticle where
  articleId : String
  quantity : Int
deriving DecidableEq, Repr

/-- Catalog article payload (the `Article` interface of `cart.rest.service.ts`). -/
structure Article where
  _id : String
  name : String
  price : Int
  stock : Int
  enabled : Bool
deriving DecidableEq, Repr

/-- One entry of the validation report (`CartValidationItem`). -/
structure CartValidationItem where
  articleId : String
  message : String
deriving DecidableEq, Repr

/-- The validation report (`ICartValidation`): ordered error and warning sequences. -/
structure ICartValidation where
  errors : List CartValidationItem
  warnings : List CartValidationItem
deriving DecidableEq, Repr

/-- The cart document fields used by the service (`ICart`). -/
structure ICart where
  userId : String
  enabled : Bool
  articles : List ICartArticle
deriving DecidableEq, Repr

/-- Request state threaded through the middleware (`IValidationResult`):
the current cart and the validation report slot written by `validateOrder`. -/
structure IValidationResult where
  cart : ICart
  validation : Option ICartValidation
deriving DecidableEq, Repr

/-- Join of a requested `articleId` against the settled fan-out results:
`results.find(element => element._id == article.articleId)`.  A `none`
entry is the `{_id: undefined}` failure sentinel, whose `_id` compares
unequal to every string, so the scan skips it. -/
def findResult (results : List (Option Article)) (articleId : String) : Option Article :=
  match results with
  | [] => none
  | none :: rest => findResult rest articleId
  | some a :: rest => if a._id = articleId then some a else findResult rest articleId

/-- One iteration of the classification `forEach` (lines 331-350): pushes at most
one error or one warning for the line, according to the joined result. -/
def classifyStep (results : List (Option Article)) (v : ICartValidation)
    (article : ICartArticle) : ICartValidation :=
  match findResult results article.articleId with
  | none =>
      { v with errors := v.errors ++ [⟨article.articleId, "No se encuentra"⟩] }
  | some result =>
      if !result.enabled then
        { v with errors := v.errors ++ [⟨article.articleId, "Articulo inválido"⟩] }
      else if result.stock < article.quantity then
        { v with warnings := v.warnings ++ [⟨article.articleId, "Insuficiente stock"⟩] }
      else v

/-- The aggregation and classification stage (the final `async.map` callback,
lines 320-350): starts from a fresh empty report and folds the cart's lines
in order, each looked up in the results by `findResult`. -/
def classify (articles : List ICartArticle) (results : List (Option Article)) :
    ICartValidation :=
  articles.foldl (classifyStep results) ⟨[], []⟩

/-- The fan-out stage (the `async.map` iterator, lines 306-319): one lookup per
line item, keyed by its `articleId`; a rejected lookup settles as `none`
(the catch handler's sentinel). -/
def fanOut (catalog : String → Option Article) (articles : List ICartArticle) :
    List (Option Article) :=
  articles.map (fun article => catalog article.articleId)

/-- The whole `validateOrder` middleware as a state transformer on the request:
fans out the lookups over the cart's articles, classifies, and stores the fresh
report in `req.validation`, leaving every other request field unchanged. -/
def validateOrder (catalog : String → Option Article) (req : IValidationResult) :
    IValidationResult :=
  { req with validation := some (classify req.cart.articles (fanOut catalog req.cart.articles)) }

/-- Error entry contributed by one line, read off the branches of `classifyStep`. -/
def errEntry (results : List (Option Article)) (article : ICartArticle) :
    Option CartValidationItem :=
  match findResult results article.articleId with
  | none => some ⟨article.articleId, "No se encuentra"⟩
  | some result =>
      if !result.enabled then some ⟨article.articleId, "Articulo inválido"⟩ else none

/-- Warning entry contributed by one line, read off the branches of `classifyStep`. -/
def warnEntry (results : List (Option Article)) (article : ICartArticle) :
    Option CartValidationItem :=
  match findResult results article.articleId with
  | none => none
  | some result =>
      if !result.enabled then none
      else if result.stock < article.quantity then
        some ⟨article.articleId, "Insuficiente stock"⟩
      else none

/-- Classification outcome of a single line under the joined results. -/
inductive LineOutcome where
  | err (msg : String)
  | warn (msg : String)
  | ok
deriving DecidableEq, Repr

/-- Outcome of one line as the classification stage computes it (join first,
then the three-branch precedence of lines 332-349). -/
def itemOutcome (results : List (Option Article)) (article : ICartArticle) :
    LineOutcome :=
  match findResult results article.articleId with
  | none => LineOutcome.err ("No se encuentra")
  | some result =>
      if !result.enabled then LineOutcome.err ("Articulo inválido")
      else if result.stock < article.quantity then
        LineOutcome.warn ("Insuficiente stock")
      else LineOutcome.ok

/-- Per-line classification rule exactly as the specification words it,
applied to the line's own lookup result (not through the join): absent
snapshot is a not-found error, disabled snapshot an invalid-article error,
short stock a warning, anything else no record. -/
def specLineOutcome (result : Option Article) (quantity : Int) : LineOutcome :=
  match result with
  | none => LineOutcome.err ("No se encuentra")
  | some a =>
      if !a.enabled then LineOutcome.err ("Articulo inválido")
      else if a.stock < quantity then LineOutcome.warn ("Insuficiente stock")
      else LineOutcome.ok

/-! ### Characterization of the classification fold -/

theorem classify_go (results : List (Option Article)) :
    ∀ (articles : List ICartArticle) (e w : List CartValidationItem),
      articles.foldl (classifyStep results) ⟨e, w⟩ =
        ⟨e ++ articles.filterMap (errEntry results),
         w ++ articles.filterMap (warnEntry results)⟩ := by
  intro articles
  induction articles with
  | nil => intro e w; simp [List.foldl]
  | cons a rest ih =>
      intro e w
      simp only [List.foldl_cons, List.filterMap_cons]
      rcases hfind : findResult results a.articleId with _ | result
      · simp [classifyStep, errEntry, warnEntry, hfind, ih]
      · by_cases hen : result.enabled
        · by_cases hst : result.stock < a.quantity
          · simp [classifyStep, errEntry, warnEntry, hfind, hen, hst, ih]
          · simp [classifyStep, errEntry, warnEntry, hfind, hen, hst, ih]
        · simp [classifyStep, errEntry, warnEntry, hfind, hen, ih]

/-- Master description of the report: errors and warnings are the in-order
per-line contributions of the cart, each line contributing through its
`errEntry` and `warnEntry`. -/
theorem classify_eq (articles : List ICartArticle) (results : List (Option Article)) :
    classify articles results =
      ⟨articles.filterMap (errEntry results), articles.filterMap (warnEntry results)⟩ := by
  have h := classify_go results articles [] []
  simpa [classify] using h

/-! ### Inversion lemmas for the join and the per-line entries -/

theorem findResult_eq_some_inv {results : List (Option Article)} {x : String}
    {a : Article} (h : findResult results x = some a) :
    some a ∈ results ∧ a._id = x := by
  induction results with
  | nil => simp [findResult] at h
  | cons r rest ih =>
      match r with
      | none =>
          simp only [findResult] at h
          rcases ih h with ⟨hm, hid⟩
          exact ⟨List.mem_cons_of_mem _ hm, hid⟩
      | some b =>
          by_cases hb : b._id = x
          · simp only [findResult, hb, if_pos] at h
            cases h
            exact ⟨List.mem_cons_self _ _, hb⟩
          · simp only [findResult, hb, if_neg, not_false_iff] at h
            rcases ih h with ⟨hm, hid⟩
            exact ⟨List.mem_cons_of_mem _ hm, hid⟩

theorem findResult_eq_none_of (results : List (Option Article)) (x : String)
    (h : ∀ a : Article, some a ∈ results → a._id ≠ x) :
    findResult results x = none := by
  induction results with
  | nil => rfl
  | cons r rest ih =>
      match r with
      | none =>
          exact ih (fun a ha => h a (List.mem_cons_of_mem _ ha))
      | some b =>
          have hb : b._id ≠ x := h b (List.mem_cons_self _ _)
          simp only [findResult, hb, if_neg, not_false_iff]
          exact ih (fun a ha => h a (List.mem_cons_of_mem _ ha))

theorem errEntry_eq_some_inv {results : List (Option Article)} {c : ICartArticle}
    {e : CartValidationItem} (h : errEntry results c = some e) :
    e.articleId = c.articleId ∧
      ((findResult results c.articleId = none ∧ e.message = "No se encuentra") ∨
       (∃ r, findResult results c.articleId = some r ∧ r.enabled = false ∧
          e.message = "Articulo inválido")) := by
  rcases hf : findResult results c.articleId with _ | r
  · simp only [errEntry, hf] at h
    cases h
    exact ⟨rfl, Or.inl ⟨rfl, rfl⟩⟩
  · by_cases hen : r.enabled
    · simp [errEntry, hf, hen] at h
    · simp only [errEntry, hf, hen, Bool.not_eq_true] at h
      simp only [Bool.not_false, if_pos] at h
      cases h
      exact ⟨rfl, Or.inr ⟨r, rfl, by simpa using hen, rfl⟩⟩

theorem warnEntry_eq_some_inv {results : List (Option Article)} {c : ICartArticle}
    {w : CartValidationItem} (h : warnEntry results c = some w) :
    w.articleId = c.articleId ∧ w.message = "Insuficiente stock" ∧
      ∃ r, findResult results c.articleId = some r ∧ r.enabled = true ∧
        r.stock < c.quantity := by
  rcases hf : findResult results c.articleId with _ | r
  · simp [warnEntry, hf] at h
  · by_cases hen : r.enabled
    · by_cases hst : r.stock < c.quantity
      · simp only [warnEntry, hf, hen, Bool.not_true, Bool.false_eq_true, if_false,
          hst, if_pos] at h
        cases h
        exact ⟨rfl, rfl, r, rfl, hen, hst⟩
      · simp [warnEntry, hf, hen, hst] at h
    · simp [warnEntry, hf, hen] at h

theorem errEntry_of_findResult_none {results : List (Option Article)} {c : ICartArticle}
    (hf : findResult results c.articleId = none) :
    errEntry results c = some ⟨c.articleId, "No se encuentra"⟩ := by
  simp [errEntry, hf]

theorem warnEntry_none_of_not_warn {results : List (Option Article)} {c : ICartArticle}
    (h : ∀ r, findResult results c.articleId = some r →
      r.enabled = true → ¬ r.stock < c.quantity) :
    warnEntry results c = none := by
  rcases hf : findResult results c.articleId with _ | r
  · simp [warnEntry, hf]
  · by_cases hen : r.enabled
    · have := h r hf hen
      simp [warnEntry, hf, hen, this]
    · simp [warnEntry, hf, hen]

/-! ### Counting and order lemmas about filterMap -/

theorem countP_filterMap_eq {α β : Type} (f : α → Option β) (p : β → Bool)
    (l : List α) :
    (l.filterMap f).countP p = l.countP (fun c => ((f c).map p).getD false) := by
  induction l with
  | nil => rfl
  | cons a rest ih =>
      rcases hf : f a with _ | b
      · simp [List.filterMap_cons, hf, List.countP_cons, ih]
      · simp [List.filterMap_cons, hf, List.countP_cons, ih]

theorem map_filterMap_sublist {α β γ : Type} (f : α → Option β) (g : β → γ)
    (g' : α → γ) (l : List α) (hfg : ∀ c e, f c = some e → g e = g' c) :
    List.Sublist ((l.filterMap f).map g) (l.map g') := by
  induction l with
  | nil => simp
  | cons a rest ih =>
      rcases hf : f a with _ | b
      · simp only [List.filterMap_cons, hf, List.map_cons]
        exact List.Sublist.cons (g' a) ih
      · simp only [List.filterMap_cons, hf, List.map_cons]
        rw [hfg a b hf]
        exact List.Sublist.cons₂ (g' a) ih

theorem length_filterMap_add_le {α β : Type} (f g : α → Option β) (l : List α)
    (h : ∀ a ∈ l, f a = none ∨ g a = none) :
    (l.filterMap f).length + (l.filterMap g).length ≤ l.length := by
  induction l with
  | nil => simp
  | cons a rest ih =>
      have hrest := ih (fun b hb => h b (List.mem_cons_of_mem _ hb))
      rcases h a (List.mem_cons_self _ _) with hf | hg
      · rcases hg : g a with _ | c
        · simp only [List.filterMap_cons, hf, hg, List.length_cons]
          omega
        · simp only [List.filterMap_cons, hf, hg, List.length_cons]
          omega
      · rcases hf : f a with _ | b
        · simp only [List.filterMap_cons, hf, hg, List.length_cons]
          omega
        · simp only [List.filterMap_cons, hf, hg, List.length_cons]
          omega

theorem errEntry_warnEntry_not_both {results : List (Option Article)}
    (c : ICartArticle) :
    errEntry results c = none ∨ warnEntry results c = none := by
  rcases hf : findResult results c.articleId with _ | r
  · right; simp [warnEntry, hf]
  · by_cases hen : r.enabled
    · left; simp [errEntry, hf, hen]
    · right; simp [warnEntry, hf, hen]

/-- Membership in one direction for `Forall₂`: a left element has a related
right element. -/
theorem forall₂_exists_right {α β : Type} {R : α → β → Prop} :
    ∀ {l₁ : List α} {l₂ : List β}, List.Forall₂ R l₁ l₂ →
      ∀ {x : α}, x ∈ l₁ → ∃ y ∈ l₂, R x y := by
  intro l₁ l₂ h
  induction h with
  | nil => intro x hx; cases hx
  | cons hr htail ih =>
      intro x hx
      rcases List.mem_cons.mp hx with rfl | hx'
      · exact ⟨_, List.mem_cons_self _ _, hr⟩
      · rcases ih hx' with ⟨y, hy, hxy⟩
        exact ⟨y, List.mem_cons_of_mem _ hy, hxy⟩

/-- Positional description of the join when the catalog is honest: if every
settled success carries the `_id` that its line requested and the cart's
article ids are pairwise distinct, then the by-id join recovers exactly the
line's own settled result. -/
theorem findResult_get_of_honest :
    ∀ {results : List (Option Article)} {articles : List ICartArticle},
      List.Forall₂ (fun r c => ∀ a : Article, r = some a → a._id = c.articleId)
        results articles →
      (articles.map (fun c => c.articleId)).Nodup →
      ∀ (j : Nat) (hj : j < articles.length) (hj' : j < results.length),
        findResult results (articles.get ⟨j, hj⟩).articleId = results.get ⟨j, hj'⟩ := by
  intro results articles h
  induction h with
  | nil =>
      intro _ j hj _
      exact absurd hj (by simp)
  | @cons r c rs cs hr htail ih =>
      intro hnd j hj hj'
      have hnotin : c.articleId ∉ cs.map (fun c' => c'.articleId) :=
        (List.nodup_cons.mp (by simpa using hnd)).1
      have hnd' : (cs.map (fun c' => c'.articleId)).Nodup :=
        (List.nodup_cons.mp (by simpa using hnd)).2
      match j with
      | 0 =>
          match r, hr with
          | none, _ =>
              show findResult (none :: rs) c.articleId = none
              simp only [findResult]
              apply findResult_eq_none_of
              intro a ha hax
              rcases forall₂_exists_right htail ha with ⟨c', hc', hrc'⟩
              have : a._id = c'.articleId := hrc' a rfl
              exact hnotin (by rw [← hax, this]; exact List.mem_map_of_mem _ hc')
          | some a, hr =>
              have hid : a._id = c.articleId := hr a rfl
              show findResult (some a :: rs) c.articleId = some a
              simp [findResult, hid]
      | Nat.succ j' =>
          have hj₂ : j' < cs.length := by simpa using Nat.lt_of_succ_lt_succ hj
          have hj₂' : j' < rs.length := by simpa using Nat.lt_of_succ_lt_succ hj'
          have hxmem : (cs.get ⟨j', hj₂⟩).articleId ∈ cs.map (fun c' => c'.articleId) :=
            List.mem_map_of_mem _ (cs.get_mem _ _)
          have hxe : c.articleId ≠ (cs.get ⟨j', hj₂⟩).articleId := by
            intro hcontra
            exact hnotin (hcontra ▸ hxmem)
          rw [List.get_cons_succ, List.get_cons_succ]
          match r, hr with
          | none, _ =>
              simp only [findResult]
              exact ih hnd' j' hj₂ hj₂'
          | some a, hr =>
              have hid : a._id = c.articleId := hr a rfl
              have : a._id ≠ (cs.get ⟨j', hj₂⟩).articleId := by rw [hid]; exact hxe
              simp only [findResult, this, if_neg, not_false_iff]
              exact ih hnd' j' hj₂ hj₂'

/-- Counting lines by article id: under the cart's uniqueness invariant a
member's id is carried by exactly one line. -/
theorem countP_articleId_eq_one (articles : List ICartArticle)
    (hnd : (articles.map (fun c => c.articleId)).Nodup)
    {item : ICartArticle} (hmem : item ∈ articles) :
    articles.countP (fun c => c.articleId == item.articleId) = 1 := by
  have hmap : articles.countP (fun c => c.articleId == item.articleId)
      = (articles.map (fun c => c.articleId)).countP (fun y => y == item.articleId) := by
    rw [List.countP_map]
    rfl
  rw [hmap, ← List.count_eq_countP]
  exact List.count_eq_one_of_mem hnd (List.mem_map_of_mem _ hmem)

/-- An id-preserving per-line entry function contributes at most one entry
carrying a given id when the cart carries that id exactly once. -/
theorem countP_filterMap_articleId_le (articles : List ICartArticle) (x : String)
    (f : ICartArticle → Option CartValidationItem)
    (hf : ∀ c e, f c = some e → e.articleId = c.articleId)
    (hone : articles.countP (fun c => c.articleId == x) = 1) :
    (articles.filterMap f).countP (fun e => e.articleId == x) ≤ 1 := by
  rw [countP_filterMap_eq]
  have hle : articles.countP
      (fun c => (((f c).map (fun e => e.articleId == x)).getD false))
      ≤ articles.countP (fun c => c.articleId == x) := by
    apply List.countP_mono_left
    intro c hc hp
    rcases he : f c with _ | e
    · rw [he] at hp
      simp at hp
    · rw [he] at hp
      have hp' : e.articleId = x := by simpa using hp
      rw [← hf c e he]
      simpa using hp'
  exact le_trans hle (le_of_eq hone)

/-! ### Claim theorems -/

/-- C1: for every cart and every honest behavior of the catalog collaborator,
an individual lookup failure only yields the `NotFound` sentinel for its own
line: the pipeline still produces the full report (first conjunct, the fold
never aborts and yields the per-line contributions), the failed line is
classified as the error "No se encuentra" (second conjunct), and every line —
the others included — is classified exactly by the specification's rule
applied to its own settled lookup result (third conjunct). -/
theorem validateOrder_partial_failure_isolation
    (articles : List ICartArticle) (results : List (Option Article))
    (hhon : List.Forall₂ (fun r c => ∀ a : Article, r = some a → a._id = c.articleId)
      results articles)
    (hnd : (articles.map (fun c => c.articleId)).Nodup)
    (i : Nat) (hi : i < articles.length) (hi' : i < results.length)
    (hfail : results.get ⟨i, hi'⟩ = none) :
    classify articles results =
        ⟨articles.filterMap (errEntry results), articles.filterMap (warnEntry results)⟩
    ∧ itemOutcome results (articles.get ⟨i, hi⟩) = LineOutcome.err ("No se encuentra")
    ∧ ∀ (j : Nat) (hj : j < articles.length) (hj' : j < results.length),
        itemOutcome results (articles.get ⟨j, hj⟩)
          = specLineOutcome (results.get ⟨j, hj'⟩) (articles.get ⟨j, hj⟩).quantity := by
  refine ⟨classify_eq articles results, ?_, ?_⟩
  · have h := findResult_get_of_honest hhon hnd i hi hi'
    rw [hfail] at h
    simp only [List.get_eq_getElem] at h
    simp [itemOutcome, h]
  · intro j hj hj'
    have h := findResult_get_of_honest hhon hnd j hj hj'
    rcases hr : results.get ⟨j, hj'⟩ with _ | r
    · rw [hr] at h
      simp only [List.get_eq_getElem] at h
      simp [itemOutcome, specLineOutcome, h, hr]
    · rw [hr] at h
      simp only [List.get_eq_getElem] at h
      simp [itemOutcome, specLineOutcome, h, hr]

/-- Witness for C1 at the specification's example: cart A, B, C where the
lookup for B (line index 1) fails. -/
theorem validateOrder_partial_failure_isolation_witness :
    itemOutcome [some ⟨"A", "a", 5, 10, true⟩, none, some ⟨"C", "c", 5, 1, true⟩]
        (([⟨"A", 2⟩, ⟨"B", 1⟩, ⟨"C", 5⟩] : List ICartArticle).get ⟨1, by decide⟩)
      = LineOutcome.err ("No se encuentra") :=
  (validateOrder_partial_failure_isolation
      [⟨"A", 2⟩, ⟨"B", 1⟩, ⟨"C", 5⟩]
      [some ⟨"A", "a", 5, 10, true⟩, none, some ⟨"C", "c", 5, 1, true⟩]
      (List.Forall₂.cons (fun a ha => by cases ha; rfl)
        (List.Forall₂.cons (fun a ha => Option.noConfusion ha)
          (List.Forall₂.cons (fun a ha => by cases ha; rfl) List.Forall₂.nil)))
      (by decide) 1 (by decide) (by decide) rfl).2.1

/-- C2: a line whose article id is carried by no settled snapshot yields
exactly one error entry bearing its id, that entry's verbatim message is
"No se encuentra", and its id never occurs among the warnings. -/
theorem classify_not_found_error
    (articles : List ICartArticle) (results : List (Option Article))
    (hnd : (articles.map (fun c => c.articleId)).Nodup)
    (item : ICartArticle) (hmem : item ∈ articles)
    (habsent : ∀ a : Article, some a ∈ results → a._id ≠ item.articleId) :
    (classify articles results).errors.countP
        (fun e => e.articleId == item.articleId) = 1
    ∧ (⟨item.articleId, "No se encuentra"⟩ : CartValidationItem)
        ∈ (classify articles results).errors
    ∧ ∀ w ∈ (classify articles results).warnings, w.articleId ≠ item.articleId := by
  have hfr : findResult results item.articleId = none :=
    findResult_eq_none_of results item.articleId habsent
  rw [classify_eq]
  refine ⟨?_, ?_, ?_⟩
  · rw [countP_filterMap_eq]
    have hcongr : ∀ c ∈ articles,
        (((errEntry results c).map (fun e => e.articleId == item.articleId)).getD false)
          = (c.articleId == item.articleId) := by
      intro c _
      by_cases hcid : c.articleId = item.articleId
      · have hfc : findResult results c.articleId = none := by rw [hcid]; exact hfr
        rw [errEntry_of_findResult_none hfc]
        simp [hcid]
      · rcases he : errEntry results c with _ | e
        · simp [hcid]
        · have hide : e.articleId = c.articleId := (errEntry_eq_some_inv he).1
          simp [hide, hcid]
    have hrepl : articles.countP
        (fun c => ((errEntry results c).map
          (fun e => e.articleId == item.articleId)).getD false)
        = articles.countP (fun c => c.articleId == item.articleId) :=
      List.countP_congr (fun c hc => by rw [hcongr c hc])
    rw [hrepl]
    exact countP_articleId_eq_one articles hnd hmem
  · exact List.mem_filterMap.mpr ⟨item, hmem, errEntry_of_findResult_none hfr⟩
  · intro w hw heq
    rcases List.mem_filterMap.mp hw with ⟨c, _, hwc⟩
    rcases warnEntry_eq_some_inv hwc with ⟨hid, _, r, hfindc, _, _⟩
    have hc2 : c.articleId = item.articleId := by rw [← hid, heq]
    rw [hc2, hfr] at hfindc
    exact Option.noConfusion hfindc

/-- Witness for C2: a one-line cart whose lookup failed. -/
theorem classify_not_found_error_witness :
    (classify [⟨"B", 1⟩] []).errors.countP (fun e => e.articleId == "B") = 1
    ∧ (⟨"B", "No se encuentra"⟩ : CartValidationItem) ∈ (classify [⟨"B", 1⟩] []).errors
    ∧ ∀ w ∈ (classify [⟨"B", 1⟩] []).warnings, w.articleId ≠ "B" :=
  classify_not_found_error [⟨"B", 1⟩] [] (by decide) ⟨"B", 1⟩ (by decide)
    (fun a ha => absurd ha (List.not_mem_nil _))

/-- C3: a joined snapshot with `enabled == false` yields the error
"Articulo inválido" for the line, and its id never occurs among the warnings —
in particular no stock warning is emitted for it, whatever its stock. -/
theorem classify_disabled_article_error
    (articles : List ICartArticle) (results : List (Option Article))
    (item : ICartArticle) (hmem : item ∈ articles)
    (result : Article) (hfind : findResult results item.articleId = some result)
    (hdis : result.enabled = false) :
    (⟨item.articleId, "Articulo inválido"⟩ : CartValidationItem)
        ∈ (classify articles results).errors
    ∧ ∀ w ∈ (classify articles results).warnings, w.articleId ≠ item.articleId := by
  rw [classify_eq]
  constructor
  · refine List.mem_filterMap.mpr ⟨item, hmem, ?_⟩
    simp [errEntry, hfind, hdis]
  · intro w hw heq
    rcases List.mem_filterMap.mp hw with ⟨c, _, hwc⟩
    rcases warnEntry_eq_some_inv hwc with ⟨hid, _, r, hfindc, hren, _⟩
    have hc2 : c.articleId = item.articleId := by rw [← hid, heq]
    rw [hc2, hfind] at hfindc
    cases hfindc
    rw [hdis] at hren
    exact Bool.noConfusion hren

/-- Witness for C3: a disabled article with stock below the requested
quantity still only yields the invalid-article error. -/
theorem classify_disabled_article_error_witness :
    (⟨"A", "Articulo inválido"⟩ : CartValidationItem)
        ∈ (classify [⟨"A", 3⟩] [some ⟨"A", "a", 5, 1, false⟩]).errors
    ∧ ∀ w ∈ (classify [⟨"A", 3⟩] [some ⟨"A", "a", 5, 1, false⟩]).warnings,
        w.articleId ≠ "A" :=
  classify_disabled_article_error [⟨"A", 3⟩] [some ⟨"A", "a", 5, 1, false⟩]
    ⟨"A", 3⟩ (by decide) ⟨"A", "a", 5, 1, false⟩ (by decide) rfl

/-- C4: a joined snapshot with `enabled == true` never yields an error for the
line; the warning "Insuficiente stock" is present exactly when the snapshot's
stock is below the requested quantity; with sufficient stock the line's id
occurs in neither sequence. -/
theorem classify_insufficient_stock_warning
    (articles : List ICartArticle) (results : List (Option Article))
    (hnd : (articles.map (fun c => c.articleId)).Nodup)
    (item : ICartArticle) (hmem : item ∈ articles)
    (result : Article) (hfind : findResult results item.articleId = some result)
    (hen : result.enabled = true) :
    (∀ e ∈ (classify articles results).errors, e.articleId ≠ item.articleId)
    ∧ ((⟨item.articleId, "Insuficiente stock"⟩ : CartValidationItem)
        ∈ (classify articles results).warnings ↔ result.stock < item.quantity)
    ∧ (item.quantity ≤ result.stock →
        ∀ w ∈ (classify articles results).warnings, w.articleId ≠ item.articleId) := by
  rw [classify_eq]
  refine ⟨?_, ⟨?_, ?_⟩, ?_⟩
  · intro e he heq
    rcases List.mem_filterMap.mp he with ⟨c, _, hec⟩
    rcases errEntry_eq_some_inv hec with ⟨hid, hcase⟩
    have hc2 : c.articleId = item.articleId := by rw [← hid, heq]
    rcases hcase with ⟨hnone, _⟩ | ⟨r, hfindc, hrdis, _⟩
    · rw [hc2, hfind] at hnone
      exact Option.noConfusion hnone
    · rw [hc2, hfind] at hfindc
      cases hfindc
      rw [hen] at hrdis
      exact Bool.noConfusion hrdis
  · intro hmemw
    rcases List.mem_filterMap.mp hmemw with ⟨c, hc, hwc⟩
    rcases warnEntry_eq_some_inv hwc with ⟨hid, _, r, hfindc, _, hst⟩
    have hceq : c = item :=
      List.inj_on_of_nodup_map hnd hc hmem (by rw [← hid])
    rw [hceq] at hfindc hst
    rw [hfind] at hfindc
    cases hfindc
    exact hst
  · intro hst
    exact List.mem_filterMap.mpr ⟨item, hmem, by simp [warnEntry, hfind, hen, hst]⟩
  · intro hge w hw heq
    rcases List.mem_filterMap.mp hw with ⟨c, hc, hwc⟩
    rcases warnEntry_eq_some_inv hwc with ⟨hid, _, r, hfindc, _, hst⟩
    have hceq : c = item :=
      List.inj_on_of_nodup_map hnd hc hmem (by rw [← hid]; exact heq)
    rw [hceq] at hfindc hst
    rw [hfind] at hfindc
    cases hfindc
    omega

/-- Witness for C4: an enabled snapshot with stock 1 against quantity 5 warns;
the same instantiation discharges every hypothesis of the theorem. -/
theorem classify_insufficient_stock_warning_witness :
    (∀ e ∈ (classify [⟨"C", 5⟩] [some ⟨"C", "c", 5, 1, true⟩]).errors,
        e.articleId ≠ "C")
    ∧ ((⟨"C", "Insuficiente stock"⟩ : CartValidationItem)
        ∈ (classify [⟨"C", 5⟩] [some ⟨"C", "c", 5, 1, true⟩]).warnings ↔ (1 : Int) < 5)
    ∧ ((5 : Int) ≤ 1 →
        ∀ w ∈ (classify [⟨"C", 5⟩] [some ⟨"C", "c", 5, 1, true⟩]).warnings,
          w.articleId ≠ "C") :=
  classify_insufficient_stock_warning [⟨"C", 5⟩] [some ⟨"C", "c", 5, 1, true⟩]
    (by decide) ⟨"C", 5⟩ (by decide) ⟨"C", "c", 5, 1, true⟩ (by decide) rfl

/-- C5: no article id is shared between the error and the warning sequences;
a line whose outcome is `Ok` contributes to neither; and under the cart's
uniqueness invariant a line's id occurs at most once in each sequence —
so every line appears in at most one of the two sequences, never both,
and only if its outcome is not `Ok`. -/
theorem classify_line_in_at_most_one_sequence
    (articles : List ICartArticle) (results : List (Option Article))
    (hnd : (articles.map (fun c => c.articleId)).Nodup) :
    (∀ e ∈ (classify articles results).errors,
        ∀ w ∈ (classify articles results).warnings, e.articleId ≠ w.articleId)
    ∧ (∀ c ∈ articles, itemOutcome results c = LineOutcome.ok →
        (∀ e ∈ (classify articles results).errors, e.articleId ≠ c.articleId)
        ∧ (∀ w ∈ (classify articles results).warnings, w.articleId ≠ c.articleId))
    ∧ (∀ c ∈ articles,
        (classify articles results).errors.countP
            (fun e => e.articleId == c.articleId) ≤ 1
        ∧ (classify articles results).warnings.countP
            (fun w => w.articleId == c.articleId) ≤ 1) := by
  rw [classify_eq]
  refine ⟨?_, ?_, ?_⟩
  · intro e he w hw heq
    rcases List.mem_filterMap.mp he with ⟨c₁, _, hec⟩
    rcases List.mem_filterMap.mp hw with ⟨c₂, _, hwc⟩
    rcases errEntry_eq_some_inv hec with ⟨hid₁, hcase⟩
    rcases warnEntry_eq_some_inv hwc with ⟨hid₂, _, r, hfind₂, hren, _⟩
    have hsame : c₁.articleId = c₂.articleId := by rw [← hid₁, heq, hid₂]
    rcases hcase with ⟨hnone, _⟩ | ⟨r', hfind₁, hdis, _⟩
    · rw [hsame, hfind₂] at hnone
      exact Option.noConfusion hnone
    · rw [hsame, hfind₂] at hfind₁
      cases hfind₁
      rw [hren] at hdis
      exact Bool.noConfusion hdis
  · intro c _ hok
    rcases hf : findResult results c.articleId with _ | r
    · rw [itemOutcome, hf] at hok
      exact absurd hok (by simp)
    · by_cases hen : r.enabled
      · by_cases hst : r.stock < c.quantity
        · rw [itemOutcome, hf] at hok
          simp [hen, hst] at hok
        · constructor
          · intro e he heq
            rcases List.mem_filterMap.mp he with ⟨c', _, hec⟩
            rcases errEntry_eq_some_inv hec with ⟨hid, hcase⟩
            have hc2 : c'.articleId = c.articleId := by rw [← hid, heq]
            rcases hcase with ⟨hnone, _⟩ | ⟨r', hfind', hdis, _⟩
            · rw [hc2, hf] at hnone
              exact Option.noConfusion hnone
            · rw [hc2, hf] at hfind'
              cases hfind'
              rw [hen] at hdis
              exact Bool.noConfusion hdis
          · intro w hw heq
            rcases List.mem_filterMap.mp hw with ⟨c', hc', hwc⟩
            rcases warnEntry_eq_some_inv hwc with ⟨hid, _, r', hfind', _, hst'⟩
            have hceq : c' = c :=
              List.inj_on_of_nodup_map hnd hc' (by assumption)
                (by rw [← hid]; exact heq)
            rw [hceq] at hfind' hst'
            rw [hf] at hfind'
            cases hfind'
            exact hst hst'
      · rw [itemOutcome, hf] at hok
        simp [hen] at hok
  · intro c hc
    have hone := countP_articleId_eq_one articles hnd hc
    exact ⟨countP_filterMap_articleId_le articles c.articleId (errEntry results)
        (fun c' e he => (errEntry_eq_some_inv he).1) hone,
      countP_filterMap_articleId_le articles c.articleId (warnEntry results)
        (fun c' w hw => (warnEntry_eq_some_inv hw).1) hone⟩

/-- Witness for C5: a two-line cart, one valid line and one short-stock line. -/
theorem classify_line_in_at_most_one_sequence_witness :
    (∀ e ∈ (classify [⟨"A", 2⟩, ⟨"C", 5⟩]
        [some ⟨"A", "a", 5, 10, true⟩, some ⟨"C", "c", 5, 1, true⟩]).errors,
      ∀ w ∈ (classify [⟨"A", 2⟩, ⟨"C", 5⟩]
        [some ⟨"A", "a", 5, 10, true⟩, some ⟨"C", "c", 5, 1, true⟩]).warnings,
        e.articleId ≠ w.articleId)
    ∧ (∀ c ∈ ([⟨"A", 2⟩, ⟨"C", 5⟩] : List ICartArticle),
        itemOutcome [some ⟨"A", "a", 5, 10, true⟩, some ⟨"C", "c", 5, 1, true⟩] c
            = LineOutcome.ok →
        (∀ e ∈ (classify [⟨"A", 2⟩, ⟨"C", 5⟩]
            [some ⟨"A", "a", 5, 10, true⟩, some ⟨"C", "c", 5, 1, true⟩]).errors,
          e.articleId ≠ c.articleId)
        ∧ (∀ w ∈ (classify [⟨"A", 2⟩, ⟨"C", 5⟩]
            [some ⟨"A", "a", 5, 10, true⟩, some ⟨"C", "c", 5, 1, true⟩]).warnings,
          w.articleId ≠ c.articleId))
    ∧ (∀ c ∈ ([⟨"A", 2⟩, ⟨"C", 5⟩] : List ICartArticle),
        (classify [⟨"A", 2⟩, ⟨"C", 5⟩]
            [some ⟨"A", "a", 5, 10, true⟩, some ⟨"C", "c", 5, 1, true⟩]).errors.countP
          (fun e => e.articleId == c.articleId) ≤ 1
        ∧ (classify [⟨"A", 2⟩, ⟨"C", 5⟩]
            [some ⟨"A", "a", 5, 10, true⟩, some ⟨"C", "c", 5, 1, true⟩]).warnings.countP
          (fun w => w.articleId == c.articleId) ≤ 1) :=
  classify_line_in_at_most_one_sequence [⟨"A", 2⟩, ⟨"C", 5⟩]
    [some ⟨"A", "a", 5, 10, true⟩, some ⟨"C", "c", 5, 1, true⟩] (by decide)

/-- C6: the error sequence and the warning sequence each list their
originating article ids as a subsequence of the cart's id sequence — the
cart's relative order is preserved, nothing is sorted. -/
theorem classify_preserves_cart_order
    (articles : List ICartArticle) (results : List (Option Article)) :
    List.Sublist ((classify articles results).errors.map (fun e => e.articleId))
        (articles.map (fun c => c.articleId))
    ∧ List.Sublist ((classify articles results).warnings.map (fun w => w.articleId))
        (articles.map (fun c => c.articleId)) := by
  rw [classify_eq]
  exact ⟨map_filterMap_sublist _ _ _ _ (fun c e he => (errEntry_eq_some_inv he).1),
    map_filterMap_sublist _ _ _ _ (fun c w hw => (warnEntry_eq_some_inv hw).1)⟩

/-- C7: the pipeline is deterministic — the report is a function of the
catalog state and the cart alone — and idempotent: a second invocation on
the request produced by the first yields exactly the same request state. -/
theorem validateOrder_deterministic_idempotent
    (catalog : String → Option Article) (req req' : IValidationResult)
    (hcart : req'.cart = req.cart) :
    validateOrder catalog (validateOrder catalog req) = validateOrder catalog req
    ∧ (validateOrder catalog req').validation = (validateOrder catalog req).validation := by
  constructor
  · rfl
  · simp [validateOrder, hcart]

/-- Witness for C7: two requests sharing a cart but differing in their
previous validation slot get the same report, and revalidation is stable. -/
theorem validateOrder_deterministic_idempotent_witness :
    (validateOrder (fun _ => none)
        (validateOrder (fun _ => none) ⟨⟨"u", true, [⟨"A", 1⟩]⟩, none⟩)
      = validateOrder (fun _ => none) ⟨⟨"u", true, [⟨"A", 1⟩]⟩, none⟩)
    ∧ (validateOrder (fun _ => none) ⟨⟨"u", true, [⟨"A", 1⟩]⟩, some ⟨[], []⟩⟩).validation
      = (validateOrder (fun _ => none) ⟨⟨"u", true, [⟨"A", 1⟩]⟩, none⟩).validation :=
  validateOrder_deterministic_idempotent (fun _ => none)
    ⟨⟨"u", true, [⟨"A", 1⟩]⟩, none⟩ ⟨⟨"u", true, [⟨"A", 1⟩]⟩, some ⟨[], []⟩⟩ rfl

/-- C8: a cart with no line items validates to the report with empty error
and warning sequences, whatever the catalog does. -/
theorem validateOrder_empty_cart
    (catalog : String → Option Article) (req : IValidationResult)
    (hempty : req.cart.articles = []) :
    (validateOrder catalog req).validation
      = some (⟨[], []⟩ : ICartValidation) := by
  simp [validateOrder, hempty, classify, fanOut]

/-- Witness for C8 on a concrete empty cart. -/
theorem validateOrder_empty_cart_witness :
    (validateOrder (fun _ => some ⟨"A", "a", 5, 10, true⟩)
        ⟨⟨"u", true, []⟩, none⟩).validation
      = some (⟨[], []⟩ : ICartValidation) :=
  validateOrder_empty_cart (fun _ => some ⟨"A", "a", 5, 10, true⟩)
    ⟨⟨"u", true, []⟩, none⟩ rfl

/-- C9: the join resolves duplicate snapshot ids by taking the first match
encountered in the results sequence (`find?` over the successful snapshots in
settle order), and the classification stage still yields a well-formed report:
at most one entry per cart line across both sequences. -/
theorem classify_first_match_join
    (results : List (Option Article)) (x : String)
    (articles : List ICartArticle) :
    findResult results x
        = (results.filterMap (fun r => r)).find? (fun a => a._id == x)
    ∧ (classify articles results).errors.length
        + (classify articles results).warnings.length ≤ articles.length := by
  constructor
  · induction results with
    | nil => rfl
    | cons r rest ih =>
        match r with
        | none => simpa [findResult, List.filterMap_cons] using ih
        | some a =>
            by_cases hax : a._id = x
            · simp [findResult, hax, List.filterMap_cons, List.find?_cons]
            · simp [findResult, hax, List.filterMap_cons, List.find?_cons, ih]
  · rw [classify_eq]
    exact length_filterMap_add_le _ _ _ (fun c _ => errEntry_warnEntry_not_both c)

/-- C10: the middleware writes only the fresh validation report into the
request: the cart — its line items, user id and enabled flag — is returned
exactly as it came in. -/
theorem validateOrder_cart_unchanged
    (catalog : String → Option Article) (req : IValidationResult) :
    (validateOrder catalog req).cart = req.cart
    ∧ (validateOrder catalog req).cart.articles = req.cart.articles
    ∧ (validateOrder catalog req).cart.userId = req.cart.userId
    ∧ (validateOrder catalog req).cart.enabled = req.cart.enabled
    ∧ (validateOrder catalog req).validation
        = some (classify req.cart.articles (fanOut catalog req.cart.articles)) :=
  ⟨rfl, rfl, rfl, rfl, rfl⟩

end CartService
